import Mathlib

/-!
Verification of the placeholder extraction, substitution and preview
reconciliation logic of a legal-document templating application, shallowly
embedded from its JavaScript sources:

  * `src/services/documentParser.js`    — `parseDocument` (extraction, blank
    disambiguation, position computation, ordering, labels);
  * `src/services/documentGenerator.js` — `generateFilledDocument` (blank and
    named substitution into the document XML) and its text-recreation fallback;
  * `src/components/DocumentPreview.jsx` — the preview substitution of blank
    placeholders and the unfilled-blank-to-key reconciliation mapping.

Strings are modelled as `List Char`.  The JavaScript regexes used by this code
are simple enough that none of their matches can overlap (every pattern starts
at a bracket or currency character that cannot occur in the interior of a
match), so the global `exec` scan — leftmost, non-overlapping, resuming after
each match — reports exactly the set of positions at which the pattern matches;
the scanners below therefore test each position in turn, which keeps them
structurally recursive.  Greedy subpatterns below are always followed by a
character outside their class, so maximal munch without backtracking is exact.
-/

/-! ## Character classes and basic string operations -/

/-- Whitespace as matched by JavaScript `\s` and removed by `trim`
(ASCII whitespace plus NBSP and BOM; other Unicode space separators are not
produced by the documents this code handles). -/
def isJsWs (c : Char) : Bool :=
  c = ' ' || c = '\t' || c = '\n' || c = '\r' || c = '\x0B' || c = '\x0C' ||
  c = ' ' || c = '﻿'

def isAsciiLower (c : Char) : Bool := 'a' ≤ c && c ≤ 'z'

def isAsciiUpper (c : Char) : Bool := 'A' ≤ c && c ≤ 'Z'

def isAsciiLetter (c : Char) : Bool := isAsciiLower c || isAsciiUpper c

def isAsciiDigit (c : Char) : Bool := '0' ≤ c && c ≤ '9'

/-- Case-insensitive character comparison, as used by the `i` regex flag. -/
def ciEq (a b : Char) : Bool := a.toLower = b.toLower

/-- Case-insensitive prefix test: does `pat` occur at the head of `s`? -/
def ciStartsWith : List Char → List Char → Bool
  | [], _ => true
  | _ :: _, [] => false
  | p :: ps, c :: cs => ciEq p c && ciStartsWith ps cs

/-- Case-sensitive prefix test. -/
def isPrefixL : List Char → List Char → Bool
  | [], _ => true
  | _ :: _, [] => false
  | p :: ps, c :: cs => p = c && isPrefixL ps cs

/-- First index at which `pat` occurs in `s`, case-insensitively
(JavaScript `text.search(new RegExp(escapedLiteral, 'gi'))`). -/
def ciIndexOf (pat : List Char) (s : List Char) : Option Nat :=
  go s 0
where
  go : List Char → Nat → Option Nat
    | [], i => if pat.isEmpty then some i else none
    | l@(_ :: rest), i => if ciStartsWith pat l then some i else go rest (i + 1)

/-- Case-sensitive substring containment (JavaScript `String.includes`). -/
def containsL (s pat : List Char) : Bool :=
  go s
where
  go : List Char → Bool
    | [] => pat.isEmpty
    | l@(_ :: rest) => isPrefixL pat l || go rest

/-- JavaScript `String.trim`. -/
def jsTrim (s : List Char) : List Char :=
  ((s.dropWhile isJsWs).reverse.dropWhile isJsWs).reverse

/-- JavaScript `String.trimRight` / `trimEnd`. -/
def jsTrimRight (s : List Char) : List Char :=
  (s.reverse.dropWhile isJsWs).reverse

/-- JavaScript `String.toLowerCase` (ASCII case mapping). -/
def toLowerL (s : List Char) : List Char := s.map Char.toLower

/-- JavaScript `String.substring(a, b)` for `a ≤ b`. -/
def substringL (s : List Char) (a b : Nat) : List Char :=
  (s.drop a).take (b - a)

/-- Number of leading characters of `s` satisfying `p`. -/
def countWhile (p : Char → Bool) : List Char → Nat
  | [] => 0
  | c :: rest => if p c then countWhile p rest + 1 else 0

/-- Split on runs of whitespace (JavaScript `split(/\s+/)` applied to strings
with no leading whitespace, which is the only way the sources use it). -/
def splitWsRuns (s : List Char) : List (List Char) :=
  go s []
where
  go : List Char → List Char → List (List Char)
    | [], cur => if cur.isEmpty then [] else [cur.reverse]
    | c :: rest, cur =>
      if isJsWs c then
        if cur.isEmpty then go rest [] else cur.reverse :: go rest []
      else go rest (c :: cur)

/-- Split on a literal character, keeping empty segments
(JavaScript `String.split('_')`). -/
def splitOnChar (sep : Char) : List Char → List (List Char)
  | [] => [[]]
  | c :: rest =>
    let r := splitOnChar sep rest
    if c = sep then [] :: r
    else
      match r with
      | [] => [[c]]
      | w :: ws => (c :: w) :: ws

/-- Association-list lookup (JavaScript `Map.get`, first binding wins). -/
def lookupA {β : Type} (l : List (List Char × β)) (k : List Char) : Option β :=
  match l with
  | [] => none
  | (k', v) :: rest => if k' = k then some v else lookupA rest k

/-- Association-list lookup keyed by `Nat`. -/
def lookupN {β : Type} (l : List (Nat × β)) (k : Nat) : Option β :=
  match l with
  | [] => none
  | (k', v) :: rest => if k' = k then some v else lookupN rest k

/-- JavaScript `Map.set`: replace the binding if the key is present, else
append it. -/
def setN {β : Type} (l : List (Nat × β)) (k : Nat) (v : β) : List (Nat × β) :=
  match l with
  | [] => [(k, v)]
  | (k', v') :: rest => if k' = k then (k, v) :: rest else (k', v') :: setN rest k v

/-- Parse a run of decimal digits as a number (JavaScript `parseInt` applied
to a digits-only string). -/
def digitsToNat (l : List Char) : Nat :=
  l.foldl (fun n c => n * 10 + (c.toNat - 48)) 0

/-- Trailing digit run of a string (JavaScript `key.match(/\d+$/)[0]`,
used on keys that end in at least one digit). -/
def trailingDigits (s : List Char) : List Char :=
  (s.reverse.takeWhile isAsciiDigit).reverse

/-! ## The three bracket patterns

`documentParser.js` declares

    /\[([a-zA-Z_][a-zA-Z0-9_\s-]*)\]/g   — bracketed identifier
    /\[([_\-]{3,})\]/g                   — bracketed blank run

and the generator/preview scan the full blank pattern `/\[[_\-]{3,}\]/g`. -/

/-- Leading character class of the bracketed-identifier content. -/
def isIdentFirst (c : Char) : Bool := isAsciiLetter c || c = '_'

/-- Body character class `[a-zA-Z0-9_\s-]` of the bracketed-identifier
content. -/
def isIdentBody (c : Char) : Bool :=
  isAsciiLetter c || isAsciiDigit c || c = '_' || isJsWs c || c = '-'

/-- Character class `[_\-]` of a blank run. -/
def isBlankChar (c : Char) : Bool := c = '_' || c = '-'

/-- Content of an identifier match starting at the head of `l` (which is the
text after the opening bracket), if any: a maximal run
`[a-zA-Z_][a-zA-Z0-9_\s-]*` followed by `]`. -/
def identContentAt (l : List Char) : Option (List Char) :=
  match l with
  | [] => none
  | c :: rest =>
    if isIdentFirst c then
      let run := rest.takeWhile isIdentBody
      match rest.drop run.length with
      | ']' :: _ => some (c :: run)
      | _ => none
    else none

/-- Content of a blank match starting at the head of `l` (text after the
opening bracket), if any: a maximal run `[_\-]{3,}` followed by `]`. -/
def blankContentAt (l : List Char) : Option (List Char) :=
  let run := l.takeWhile isBlankChar
  if run.length ≥ 3 then
    match l.drop run.length with
    | ']' :: _ => some run
    | _ => none
  else none

/-- Scan for all matches of a bracket pattern: at each position, a match
starts iff the character is `[` and the content parser succeeds on the
remainder.  Returns (position of the `[`, captured content) pairs in
document order. -/
def scanWith (f : List Char → Option (List Char)) : List Char → Nat → List (Nat × List Char)
  | [], _ => []
  | c :: rest, i =>
    let tail := scanWith f rest (i + 1)
    if c = '[' then
      match f rest with
      | some content => (i, content) :: tail
      | none => tail
    else tail

/-- All matches of `/\[([a-zA-Z_][a-zA-Z0-9_\s-]*)\]/g` in the text. -/
def scanIdent (s : List Char) (i : Nat) : List (Nat × List Char) :=
  scanWith identContentAt s i

/-- All matches of `/\[([_\-]{3,})\]/g`, as (position, captured run) pairs. -/
def scanBlankPat (s : List Char) (i : Nat) : List (Nat × List Char) :=
  scanWith blankContentAt s i

/-- All matches of the full blank pattern `/\[[_\-]{3,}\]/g`, as
(position, total match length) pairs; the length is the run length plus the
two brackets. -/
def scanBlankFull (s : List Char) (i : Nat) : List (Nat × Nat) :=
  (scanBlankPat s i).map (fun m => (m.1, m.2.length + 2))

/-! ## Placeholder extraction (`documentParser.js`, text and HTML passes) -/

/-- Stop-word set `excludedWords` of `documentParser.js`. -/
def excludedWords : List (List Char) :=
  ["the".data, "a".data, "an".data, "and".data, "or".data, "of".data,
   "to".data, "in".data, "for".data, "with".data, "on".data, "at".data,
   "from".data, "by".data]

/-- Test `/^[_\-]{3,}$/` on the trimmed raw name: is this a blank run? -/
def isBlankRun (s : List Char) : Bool :=
  s.length ≥ 3 && s.all isBlankChar

/-- Test `/^blank_\d+$/`. -/
def isBlankKey (s : List Char) : Bool :=
  isPrefixL "blank_".data s &&
  (s.drop 6).length ≥ 1 && (s.drop 6).all isAsciiDigit

/-- Test `/^\d+$/` (purely numeric raw content). -/
def isAllDigits (s : List Char) : Bool :=
  s.length ≥ 1 && s.all isAsciiDigit

/-- Key normalisation of `documentParser.js`: collapse each maximal `\s+`
run to a single underscore, turn every hyphen into an underscore, then
lowercase (the chain of two `replace` calls and `toLowerCase`). -/
def normalizeName (s : List Char) : List Char :=
  toLowerL ((collapseWs s).map fun c => if c = '-' then '_' else c)
where
  /-- Replace each maximal `\s+` run by a single `_`. -/
  collapseWs : List Char → List Char
    | [] => []
    | c :: rest =>
      if isJsWs c then
        match rest with
        | [] => ['_']
        | d :: _ => if isJsWs d then collapseWs rest else '_' :: collapseWs rest
      else c :: collapseWs rest

/-- The key minted for the `n`-th blank: `'blank_' + n`. -/
def blankName (n : Nat) : List Char := "blank_".data ++ (Nat.repr n).data

/-- Validity test of `documentParser.js` for a candidate placeholder:
blank keys always pass; otherwise the normalised key must have length ≥ 2,
the raw content must not be purely numeric, and the key must not be a
stop word. -/
def isValidName (name rawName : List Char) : Bool :=
  isBlankKey name ||
  (name.length ≥ 2 && !isAllDigits rawName && !(excludedWords.contains (toLowerL name)))

/-- Extraction state: discovered keys in insertion order, the key → surface
form set map (sets as insertion-ordered duplicate-free lists), the blank
position → key map, and the blank counter. -/
structure ExtractState where
  uniques : List (List Char)
  formatMap : List (List Char × List (List Char))
  blankPositions : List (Nat × List Char)
  blankCounter : Nat
deriving Repr, DecidableEq

def initExtractState : ExtractState := ⟨[], [], [], 0⟩

/-- Record a validated key and its surface form: add the key to the unique
set on first sight, then add the surface form to the key's set
(`Set.add` deduplicates). -/
def addValid (st : ExtractState) (name fmt : List Char) : ExtractState :=
  if st.uniques.contains name then
    { st with
      formatMap := st.formatMap.map fun kv =>
        if kv.1 = name then
          (kv.1, if kv.2.contains fmt then kv.2 else kv.2 ++ [fmt])
        else kv }
  else
    { st with
      uniques := st.uniques ++ [name],
      formatMap := st.formatMap ++ [(name, [fmt])] }

/-- One step of the text-extraction loop of `documentParser.js` for a match
`(position, captured content)`: blank contents reuse the key already minted
for the same position or mint `blank_<counter>`; other contents are
normalised and validated. -/
def processTextMatch (st : ExtractState) (m : Nat × List Char) : ExtractState :=
  let originalFormat := '[' :: m.2 ++ [']']
  let rawName := jsTrim m.2
  if isBlankRun rawName then
    match lookupN st.blankPositions m.1 with
    | some name => addValid st name originalFormat
    | none =>
      let name := blankName st.blankCounter
      let st' := { st with
        blankPositions := st.blankPositions ++ [(m.1, name)],
        blankCounter := st.blankCounter + 1 }
      addValid st' name originalFormat
  else
    let name := normalizeName rawName
    if isValidName name rawName then addValid st name originalFormat else st

/-- One step of the HTML-extraction loop: blank contents are skipped
entirely (blank keys are never created from HTML), and a non-blank surface
form is recorded only when its key was already discovered from the text. -/
def processHtmlMatch (st : ExtractState) (m : Nat × List Char) : ExtractState :=
  let originalFormat := '[' :: m.2 ++ [']']
  let rawName := jsTrim m.2
  if isBlankRun rawName then st
  else
    let name := normalizeName rawName
    let isValid := !isBlankKey name &&
      (name.length ≥ 2 && !isAllDigits rawName && !(excludedWords.contains (toLowerL name)))
    if isValid && st.uniques.contains name then addValid st name originalFormat else st

/-- State after the first text pass (the bracketed-identifier pattern). -/
def pass1State (text : List Char) : ExtractState :=
  (scanIdent text 0).foldl processTextMatch initExtractState

/-- State after both text passes (identifier pattern, then blank pattern). -/
def textState (text : List Char) : ExtractState :=
  (scanBlankPat text 0).foldl processTextMatch (pass1State text)

/-- State after the HTML pass (both patterns over the HTML rendition). -/
def extractState (text html : List Char) : ExtractState :=
  (scanIdent html 0 ++ scanBlankPat html 0).foldl processHtmlMatch (textState text)

/-- The blank position → key assignment built by the text passes, in key
minting order (`blank_0` first). -/
def blankMints (text : List Char) : List (Nat × List Char) :=
  (textState text).blankPositions

/-- The assignments minted during the first (identifier-pattern) pass. -/
def pass1Mints (text : List Char) : List (Nat × List Char) :=
  (pass1State text).blankPositions

/-- The assignments minted during the second (blank-pattern) pass. -/
def pass2Mints (text : List Char) : List (Nat × List Char) :=
  (blankMints text).drop (pass1Mints text).length

/-! ## First-occurrence positions and ordering (`documentParser.js`) -/

/-- Filler class of the normalised-key pattern: each `_` of a key is turned
into `[\s_-]*` when the key is spliced into a search regex. -/
def isNormFill (c : Char) : Bool := isJsWs c || c = '_' || c = '-'

/-- Match the normalised-key part of a pattern against the head of `l`:
every `_` of the key consumes a maximal `[\s_-]*` run, every other key
character matches case-insensitively.  Returns the remainder on success.
(The run is always followed by a non-filler character, so maximal munch is
exact.) -/
def normKeyMatch : List Char → List Char → Option (List Char)
  | [], l => some l
  | k :: ks, l =>
    if k = '_' then normKeyMatch ks (l.drop (countWhile isNormFill l))
    else
      match l with
      | [] => none
      | c :: rest => if ciEq k c then normKeyMatch ks rest else none

/-- Does `new RegExp('\\[' + normalizedKey + '\\]', 'gi')` match at the head
of `l`? -/
def bracketNormKeyAt (key : List Char) (l : List Char) : Bool :=
  match l with
  | '[' :: rest =>
    match normKeyMatch key rest with
    | some (']' :: _) => true
    | _ => false
  | _ => false

/-- Does `new RegExp('\\{\\{?' + normalizedKey + '\\}?\\}', 'gi')` match at
the head of `l`?  After the key, one or two closing braces are accepted
(`\}?\}`); the optional second opening brace is tried greedily with
backtracking. -/
def curlyNormKeyAt (key : List Char) (l : List Char) : Bool :=
  match l with
  | '{' :: rest =>
    (match rest with
     | '{' :: rest2 => curlyTail key rest2 || curlyTail key rest
     | _ => curlyTail key rest)
  | _ => false
where
  curlyTail (key l : List Char) : Bool :=
    match normKeyMatch key l with
    | some ('}' :: _) => true
    | _ => false

/-- First index of `s` at which the predicate (a match-at-position test)
holds — the index reported by `String.search`. -/
def searchIdx (p : List Char → Bool) (s : List Char) : Option Nat :=
  go s 0
where
  go : List Char → Nat → Option Nat
    | [], _ => none
    | l@(_ :: rest), i => if p l then some i else go rest (i + 1)

/-- Pointwise minimum on optional positions, mirroring the
`if (match !== -1 && match < firstPosition)` update. -/
def optMin : Option Nat → Option Nat → Option Nat
  | none, b => b
  | some x, none => some x
  | some x, some y => some (min x y)

/-- The value stored in `placeholderPositions` for a key: the minimum over
case-insensitive literal searches of its recorded surface forms; for blank
keys, the offset of the `N`-th bracket-blank match of the text (`N` the
key's trailing number), falling back to the surface-form minimum when there
are fewer than `N+1` matches; for other keys, also the normalised bracket
and curly patterns.  `Infinity` (no position found) is stored as `999999`. -/
def storedPosition (text : List Char) (fm : List (List Char × List (List Char)))
    (key : List Char) : Nat :=
  let fromFormats : Option Nat :=
    match lookupA fm key with
    | none => none
    | some formats =>
      formats.foldl (fun acc fmt => optMin acc (ciIndexOf fmt text)) none
  let best : Option Nat :=
    if isBlankKey key then
      let n := digitsToNat (trailingDigits key)
      match ((scanBlankFull text 0).map Prod.fst).get? n with
      | some idx => some idx
      | none => fromFormats
    else
      optMin (optMin fromFormats (searchIdx (bracketNormKeyAt key) text))
        (searchIdx (curlyNormKeyAt key) text)
  match best with
  | none => 999999
  | some p => p

/-- Sort comparator value: `placeholderPositions.get(k) || 999999` — a
stored position of `0` is falsy in JavaScript, so it is replaced by
`999999`. -/
def sortValue (text : List Char) (fm : List (List Char × List (List Char)))
    (key : List Char) : Nat :=
  let p := storedPosition text fm key
  if p = 0 then 999999 else p

/-- Stable insertion of `x` before the first element of strictly greater
rank (elements of equal rank keep their original relative order, as
JavaScript `Array.prototype.sort` guarantees). -/
def orderedInsertBy {α : Type} (f : α → Nat) (x : α) : List α → List α
  | [] => [x]
  | y :: ys => if f x ≤ f y then x :: y :: ys else y :: orderedInsertBy f x ys

/-- Stable ascending sort by rank. -/
def stableSortBy {α : Type} (f : α → Nat) : List α → List α
  | [] => []
  | x :: xs => orderedInsertBy f x (stableSortBy f xs)

/-! ## Blank label cascade (`documentParser.js`, patterns 1–7) -/

def isQuoteChar (c : Char) : Bool := c = '"' || c = '\''

/-- Capitalise one word: `w.charAt(0).toUpperCase() + w.slice(1).toLowerCase()`. -/
def capWordLower : List Char → List Char
  | [] => []
  | c :: rest => c.toUpper :: toLowerL rest

/-- Title-case a field name:
`fieldName.split(/\s+/).map(capitalise).join(' ')`. -/
def titleCaseWs (s : List Char) : List Char :=
  List.intercalate " ".data ((splitWsRuns s).map capWordLower)

/-- Match `/\$\s*\[[_\-]+\]\s*\(?\s*the\s*["']?([^"']+)["']?\s*\)?/i` at the
head of `l` and return the capture.  The capture `[^"']+` is a maximal
nonempty quote-free run; the trailing optional parts always succeed. -/
def dollarMatchAt (l : List Char) : Option (List Char) :=
  match l with
  | '$' :: r1 =>
    let r2 := r1.drop (countWhile isJsWs r1)
    match r2 with
    | '[' :: r3 =>
      let k := countWhile isBlankChar r3
      if k ≥ 1 then
        match r3.drop k with
        | ']' :: r4 =>
          let r5 := r4.drop (countWhile isJsWs r4)
          let r6 := match r5 with | '(' :: t => t | _ => r5
          let r7 := r6.drop (countWhile isJsWs r6)
          if ciStartsWith "the".data r7 then
            let r8 := r7.drop 3
            let r9 := r8.drop (countWhile isJsWs r8)
            let r10 := match r9 with
              | c :: t => if isQuoteChar c then t else r9
              | [] => r9
            let cap := r10.takeWhile (fun c => !isQuoteChar c)
            if cap.isEmpty then none else some cap
          else none
        | _ => none
      else none
    | _ => none
  | _ => none

/-- First match of the dollar-then-quoted-term regex in `s`
(`contextBefore.match(...)`), returning capture group 1. -/
def dollarMatchCapture (s : List Char) : Option (List Char) :=
  go s
where
  go : List Char → Option (List Char)
    | [] => none
    | l@(_ :: rest) =>
      match dollarMatchAt l with
      | some cap => some cap
      | none => go rest

/-- Match `/\(?\s*the\s*["']([^"']+)["']\s*\)?/i` at the head of `l` and
return the capture (quotes are required here). -/
def quoteMatchAt (l : List Char) : Option (List Char) :=
  let r1 := match l with | '(' :: t => t | _ => l
  let r2 := r1.drop (countWhile isJsWs r1)
  if ciStartsWith "the".data r2 then
    let r3 := r2.drop 3
    let r4 := r3.drop (countWhile isJsWs r3)
    match r4 with
    | q :: r5 =>
      if isQuoteChar q then
        let cap := r5.takeWhile (fun c => !isQuoteChar c)
        if cap.isEmpty then none
        else
          match r5.drop cap.length with
          | q2 :: _ => if isQuoteChar q2 then some cap else none
          | [] => none
      else none
    | [] => none
  else none

/-- First match of the quoted-defined-term regex in `s`. -/
def quoteMatchCapture (s : List Char) : Option (List Char) :=
  go s
where
  go : List Char → Option (List Char)
    | [] => none
    | l@(_ :: rest) =>
      match quoteMatchAt l with
      | some cap => some cap
      | none => go rest

/-- Test `/[^a-z]\$\s*$/i` on `contextBefore.trimRight()`: with no trailing
whitespace left, the string must end in `$` preceded by a non-letter. -/
def dollarEndTest2 (before : List Char) : Bool :=
  match (jsTrimRight before).reverse with
  | '$' :: c :: _ => !isAsciiLetter c
  | _ => false

/-- Test `/\$\s*\[[_\-]+\]\s*$/i` on `contextBefore` (anchored at the end),
parsed from the right. -/
def dollarEndTest3 (before : List Char) : Bool :=
  let r := before.reverse
  let r1 := r.drop (countWhile isJsWs r)
  match r1 with
  | ']' :: r2 =>
    let k := countWhile isBlankChar r2
    k ≥ 1 &&
      (match r2.drop k with
       | '[' :: r3 =>
         match r3.drop (countWhile isJsWs r3) with
         | '$' :: _ => true
         | _ => false
       | _ => false)
  | _ => false

/-- The `hasDollarBefore` test of the blank-label cascade. -/
def hasDollarBefore (before : List Char) : Bool :=
  (jsTrim before).getLast? = some '$' || dollarEndTest2 before || dollarEndTest3 before

/-- Label inferred for a blank placeholder from its surrounding text: the
fixed cascade of patterns 1–7 of `documentParser.js`.  `storedPos` is the
value stored in `placeholderPositions` for the key (`get(k) || 0` is the
identity on the stored number unless it is `0`, in which case it also
yields `0`). -/
def blankLabel (text : List Char) (storedPos : Nat) (key : List Char) : List Char :=
  let position := storedPos
  let before := substringL text (position - 200) position
  let after := substringL text position (min text.length (position + 200))
  let full := toLowerL (before ++ ' ' :: after)
  match dollarMatchCapture before with
  | some cap => titleCaseWs (jsTrim cap)
  | none =>
    if hasDollarBefore before then
      if containsL after "Post-Money Valuation Cap".data ||
          containsL after "Post-Money".data ||
          containsL full "post-money valuation cap".data ||
          containsL full "\"Post-Money Valuation Cap\"".data then
        "Post-Money Valuation Cap".data
      else if containsL after "Purchase Amount".data ||
          containsL after "(the \"Purchase Amount\")".data ||
          containsL full "purchase amount".data ||
          containsL before "payment by".data ||
          containsL before "exchange for".data then
        "Purchase Amount".data
      else if containsL full "valuation cap".data && !containsL full "post-money".data then
        "Valuation Cap".data
      else if containsL full "discount rate".data || containsL full "discount".data then
        "Discount Rate".data
      else "Amount".data
    else if containsL before "on or about".data || containsL before "date of safe".data ||
        containsL before "effective date".data || containsL full "date".data then
      if containsL full "safe".data then "Date of Safe".data
      else if containsL full "effective".data then "Effective Date".data
      else "Date".data
    else if containsL full "state of incorporation".data ||
        (containsL before "a ".data && containsL after "corporation".data) then
      "State of Incorporation".data
    else if containsL full "governing law".data ||
        containsL full "laws of the state of".data then
      "Governing Law Jurisdiction".data
    else
      match quoteMatchCapture after with
      | some cap => titleCaseWs (jsTrim cap)
      | none =>
        if containsL full "purchase amount".data then "Purchase Amount".data
        else if containsL full "valuation cap".data ||
            containsL full "post-money valuation".data then
          "Post-Money Valuation Cap".data
        else if containsL full "discount rate".data || containsL full "discount".data then
          "Discount Rate".data
        else if containsL full "investor name".data then "Investor Name".data
        else if containsL full "company name".data then "Company Name".data
        else "Field ".data ++ trailingDigits key

/-! ## Non-blank labels and schema records (`documentParser.js`) -/

/-- The fixed SAFE field label dictionary. -/
def safeFieldLabels : List (List Char × List Char) :=
  [("company".data, "Company Name".data),
   ("company_by".data, "Company Signature Line".data),
   ("company_name".data, "Company Signatory Name".data),
   ("company_title".data, "Company Signatory Title".data),
   ("company_address".data, "Company Address".data),
   ("company_email".data, "Company Email".data),
   ("investor_by".data, "Investor Signature Line".data),
   ("investor_name".data, "Investor Name".data),
   ("investor_title".data, "Investor Title".data),
   ("investor_address".data, "Investor Address".data),
   ("investor_email".data, "Investor Email".data),
   ("by".data, "Signature Line".data),
   ("name".data, "Name".data),
   ("title".data, "Title".data),
   ("address".data, "Address".data),
   ("email".data, "Email".data)]

/-- Label for a non-blank key: dictionary lookup, then the
`company_`/`investor_` compound rules, then title-casing. -/
def nonBlankLabel (key : List Char) : List Char :=
  match lookupA safeFieldLabels key with
  | some l => l
  | none =>
    if key.contains '_' then
      let parts := splitOnChar '_' key
      if parts.length ≥ 2 &&
          (parts.headD [] = "company".data || parts.headD [] = "investor".data) then
        let fieldName := List.intercalate "_".data (parts.drop 1)
        let fieldLabel :=
          List.intercalate " ".data ((splitOnChar '_' fieldName).map capWordLower)
        if parts.headD [] = "company".data then
          if fieldName = "by".data then "Company Signature Line".data
          else if fieldName = "name".data then "Company Signatory Name".data
          else if fieldName = "title".data then "Company Signatory Title".data
          else "Company ".data ++ fieldLabel
        else
          if fieldName = "by".data then "Investor Signature Line".data
          else if fieldName = "name".data then "Investor Name".data
          else if fieldName = "title".data then "Investor Title".data
          else "Investor ".data ++ fieldLabel
      else
        List.intercalate " ".data ((splitOnChar '_' key).map capWordLower)
    else
      if key = "by".data then "Signature Line".data
      else
        match key with
        | [] => []
        | c :: rest => c.toUpper :: rest

/-- One schema record: `{ key, label, type: 'string', value: '', position }`
(the `type` field is named `ptype` here). -/
structure PRecord where
  key : List Char
  label : List Char
  ptype : List Char
  value : List Char
  position : Nat
deriving Repr, DecidableEq

/-- Result of a successful parse: the sorted key list, the surface-form
map, and the structured records. -/
structure ParseResult where
  placeholders : List (List Char)
  formatMap : List (List Char × List (List Char))
  placeholderObjects : List PRecord
deriving Repr, DecidableEq

/-- The pure extraction pipeline of `parseDocument` applied to the decoded
plain-text and HTML renditions: extract, locate, sort, and build records. -/
def parseCore (text html : List Char) : ParseResult :=
  let st := extractState text html
  let sorted := stableSortBy (sortValue text st.formatMap) st.uniques
  let objects := sorted.enum.map fun ik =>
    let key := ik.2
    let label :=
      if isBlankKey key then blankLabel text (storedPosition text st.formatMap key) key
      else nonBlankLabel key
    PRecord.mk key label "string".data [] (ik.1 + 1)
  ParseResult.mk sorted st.formatMap objects

/-- Error message thrown by `parseDocument`. -/
def parseErrorMsg : String :=
  "Failed to parse document. Please ensure it is a valid DOCX file."

/-- The full `parseDocument`.  Decoding the uploaded file is done by the
external `mammoth` library; its outcome is modelled as the input: `none`
for an input that cannot be decoded as a DOCX (in which case the `catch`
block rethrows the parse error and no partial schema escapes), and
`some (text, html)` for the decoded renditions.  The extraction body after
decoding is total, so it never throws. -/
def parseDocument : Option (List Char × List Char) → Except String ParseResult
  | none => Except.error parseErrorMsg
  | some th => Except.ok (parseCore th.1 th.2)

/-! ## Document generation (`documentGenerator.js`) -/

/-- The zero-width replaced-marker inserted after each substituted blank. -/
def marker : List Char := "<!--REPLACED-->".data

/-- Case-insensitive count of non-overlapping leftmost matches of the
literal `pat` (the escaped-format regex with flags `gi`). -/
def ciCount (pat : List Char) (s : List Char) : Nat :=
  go 0 s
where
  go : Nat → List Char → Nat
    | k + 1, _ :: rest => go k rest
    | _, [] => 0
    | 0, l@(_ :: rest) =>
      if !pat.isEmpty && ciStartsWith pat l then 1 + go (pat.length - 1) rest
      else go 0 rest

/-- Case-insensitive replacement of every non-overlapping leftmost match of
the literal `pat` by `repl`. -/
def ciReplaceAll (pat repl : List Char) (s : List Char) : List Char :=
  go 0 s
where
  go : Nat → List Char → List Char
    | k + 1, _ :: rest => go k rest
    | _, [] => []
    | 0, l@(c :: rest) =>
      if !pat.isEmpty && ciStartsWith pat l then repl ++ go (pat.length - 1) rest
      else c :: go 0 rest

/-- Case-sensitive removal of every occurrence of `pat`
(the final `replace(marker-regex, '')`, whose regex has no `i` flag). -/
def csRemoveAll (pat : List Char) (s : List Char) : List Char :=
  go 0 s
where
  go : Nat → List Char → List Char
    | k + 1, _ :: rest => go k rest
    | _, [] => []
    | 0, l@(c :: rest) =>
      if !pat.isEmpty && isPrefixL pat l then go (pat.length - 1) rest
      else c :: go 0 rest

/-- Strip the internal replaced-markers from the body. -/
def stripMarkers (s : List Char) : List Char := csRemoveAll marker s

/-- Is the value of key `k` in the answer map nonempty after trimming
(`filledValues[key] && filledValues[key].trim() !== ''`)? -/
def isFilledVal (fv : List (List Char × List Char)) (k : List Char) : Bool :=
  match lookupA fv k with
  | some v => !(jsTrim v).isEmpty
  | none => false

/-- JavaScript `Array.indexOf` as a comparator value (`-1` when absent). -/
def idxVal (placeholders : List (List Char)) (k : List Char) : Int :=
  go placeholders 0
where
  go : List (List Char) → Nat → Int
    | [], _ => -1
    | p :: rest, i => if p = k then (i : Int) else go rest (i + 1)

/-- Stable insertion before the first element of strictly smaller index —
the JavaScript stable sort under the comparator
`(a, b) => indexOf(b) - indexOf(a)` (descending document order). -/
def insertDescBy {α : Type} (f : α → Int) (x : α) : List α → List α
  | [] => [x]
  | y :: ys => if f x ≥ f y then x :: y :: ys else y :: insertDescBy f x ys

/-- Stable sort, descending by rank. -/
def sortDescBy {α : Type} (f : α → Int) : List α → List α
  | [] => []
  | x :: xs => insertDescBy f x (sortDescBy f xs)

/-- The `occurrenceIndex` computed for blank key `k`: walk `placeholders`
up to `k`, counting the blank keys whose value in the full answer map is
missing, empty or whitespace-only. -/
def occurrenceIndexFor (placeholders : List (List Char))
    (fv : List (List Char × List Char)) (k : List Char) : Nat :=
  go placeholders
where
  go : List (List Char) → Nat
    | [] => 0
    | p :: rest =>
      if p = k then 0
      else (if isBlankKey p && !isFilledVal fv p then 1 else 0) + go rest

/-- One iteration of the blank-replacement loop of `generateFilledDocument`:
skip empty answers; compute the occurrence index; collect the blank-pattern
matches of the current body whose ±50-character window does not contain the
replaced-marker; splice the answer followed by the marker over the match at
the occurrence index, unless the 50 characters before it contain the
marker. -/
def blankStep (placeholders : List (List Char)) (fv : List (List Char × List Char))
    (xml : List Char) (e : List Char × List Char) : List Char :=
  if (jsTrim e.2).isEmpty then xml
  else
    let occ := occurrenceIndexFor placeholders fv e.1
    let allBlankMatches := (scanBlankFull xml 0).filter fun m =>
      !containsL (substringL xml (m.1 - 50) (min xml.length (m.1 + m.2 + 50))) marker
    match allBlankMatches.get? occ with
    | none => xml
    | some m =>
      let checkBefore := substringL xml (m.1 - 50) m.1
      if containsL checkBefore marker then xml
      else xml.take m.1 ++ e.2 ++ marker ++ xml.drop (m.1 + m.2)

/-- The blank pass: filter the answer map down to `blank_<n>` keys, sort
them into descending document order (by their index in `placeholders`), and
run the replacement loop. -/
def blanksPass (xml : List Char) (placeholders : List (List Char))
    (fv : List (List Char × List Char)) : List Char :=
  let blankEntries := fv.filter fun e => isBlankKey e.1
  let sorted := sortDescBy (fun e => idxVal placeholders e.1) blankEntries
  sorted.foldl (blankStep placeholders fv) xml

/-! ### Non-blank replacement strategies

Strategy 2 and the key-variation fallback build their regexes by string
surgery on the escaped surface form; the small token language below gives
those constructed regexes their semantics.  Every `many` token is followed
by a token that cannot start with a character of its class (surface forms
are bracket-delimited, with content drawn from the identifier or blank
classes), so greedy matching without backtracking is exact. -/

inductive RTok where
  /-- literal character (case differences impossible: non-letters only) -/
  | lit (c : Char)
  /-- case-insensitive literal character -/
  | litCI (c : Char)
  /-- exactly one character of the class -/
  | one (p : Char → Bool)
  /-- a maximal (possibly empty) run of the class -/
  | many (p : Char → Bool)

/-- Match a token sequence at the head of `l`, returning the number of
characters consumed. -/
def matchRToks : List RTok → List Char → Option Nat
  | [], _ => some 0
  | RTok.lit _ :: _, [] => none
  | RTok.lit c :: ts, d :: rest =>
    if d = c then (matchRToks ts rest).map (· + 1) else none
  | RTok.litCI _ :: _, [] => none
  | RTok.litCI c :: ts, d :: rest =>
    if ciEq c d then (matchRToks ts rest).map (· + 1) else none
  | RTok.one _ :: _, [] => none
  | RTok.one p :: ts, d :: rest =>
    if p d then (matchRToks ts rest).map (· + 1) else none
  | RTok.many p :: ts, s =>
    let k := countWhile p s
    (matchRToks ts (s.drop k)).map (· + k)

/-- Count non-overlapping leftmost matches of a match-at-position function
(zero-length matches are impossible for the patterns used here, since every
pattern contains at least one literal; they are treated as non-matches). -/
def countByMatch (matchAt : List Char → Option Nat) (s : List Char) : Nat :=
  go 0 s
where
  go : Nat → List Char → Nat
    | k + 1, _ :: rest => go k rest
    | _, [] => 0
    | 0, l@(_ :: rest) =>
      match matchAt l with
      | some (n + 1) => 1 + go n rest
      | _ => go 0 rest

/-- Replace every non-overlapping leftmost match of a match-at-position
function by `repl`. -/
def replaceByMatch (matchAt : List Char → Option Nat) (repl : List Char)
    (s : List Char) : List Char :=
  go 0 s
where
  go : Nat → List Char → List Char
    | k + 1, _ :: rest => go k rest
    | _, [] => []
    | 0, l@(c :: rest) =>
      match matchAt l with
      | some (n + 1) => repl ++ go n rest
      | _ => c :: go 0 rest

/-- Strategy 2's "flexible pattern".  The source escapes the surface form,
then replaces every `[` character by the six characters `\[\s]*` and every
`]` character by the seven characters `[\s]*\]`.  Re-parsing the resulting
string as a regex: each `[` of the surface form (escaped to `\[`) becomes
`\\` `[\s[\s]*` `\]*` — a literal backslash, a run of whitespace-or-`[`,
and a run of `]`; each `]` (escaped to `\]`) becomes `\[` `\s` `]*` `\]` —
a literal `[`, exactly one whitespace, a run of `]`, and a literal `]`;
every other character stays a (case-insensitive) literal. -/
def compileS2 (fmt : List Char) : List RTok :=
  fmt.flatMap fun c =>
    if c = '[' then
      [RTok.lit '\\', RTok.many (fun d => isJsWs d || d = '['),
       RTok.many (fun d => d = ']')]
    else if c = ']' then
      [RTok.lit '[', RTok.one isJsWs, RTok.many (fun d => d = ']'), RTok.lit ']']
    else [RTok.litCI c]

/-- Strategy 3: strip brackets and braces from the surface form, trim, and
try `\[\s*name\s*\]`, `\{\{\s*name\s*\}\}`, `\{\s*name\s*\}` in order,
replacing all matches of the first pattern that has any. -/
def strategy3 (x name value : List Char) : Option (List Char) :=
  let nameToks := name.map RTok.litCI
  let pats : List (List RTok) :=
    [[RTok.lit '['] ++ [RTok.many isJsWs] ++ nameToks ++ [RTok.many isJsWs] ++ [RTok.lit ']'],
     [RTok.lit '{', RTok.lit '{', RTok.many isJsWs] ++ nameToks ++
       [RTok.many isJsWs, RTok.lit '}', RTok.lit '}'],
     [RTok.lit '{', RTok.many isJsWs] ++ nameToks ++ [RTok.many isJsWs, RTok.lit '}']]
  go pats
where
  go : List (List RTok) → Option (List Char)
    | [] => none
    | p :: ps =>
      if countByMatch (matchRToks p) x > 0 then
        some (replaceByMatch (matchRToks p) value x)
      else go ps

/-- The last-resort helper `replacePlaceholderInXML`.  Its first attempt is
the plain case-insensitive literal replacement.  Its second attempt joins
the characters of the *escaped* surface form with an optional-tag group;
the leading escape backslash of a bracket-delimited surface form turns the
group's opening parenthesis into a literal, leaving the closing parenthesis
unmatched, so `new RegExp` throws a `SyntaxError` — modelled as an error
(the parser records only bracket-delimited surface forms). -/
def replacePlaceholderInXML (xml fmt value : List Char) : Except Unit (List Char) :=
  if ciCount fmt xml > 0 then Except.ok (ciReplaceAll fmt value xml)
  else Except.error ()

/-- Replacement of one surface form of a non-blank key: strategy 1 (direct
case-insensitive literal), else strategy 2 (flexible pattern), else
strategy 3 (name patterns), else the last-resort helper. -/
def nonBlankFormatStep (value : List Char) (x : List Char) (fmt : List Char) :
    Except Unit (List Char) :=
  if ciCount fmt x > 0 then Except.ok (ciReplaceAll fmt value x)
  else if countByMatch (matchRToks (compileS2 fmt)) x > 0 then
    Except.ok (replaceByMatch (matchRToks (compileS2 fmt)) value x)
  else
    match strategy3 x (jsTrim (fmt.filter fun c => !(c = '[' || c = ']' || c = '{' || c = '}'))) value with
    | some x' => Except.ok x'
    | none => replacePlaceholderInXML x fmt value

/-- Fallback for a key with no recorded surface forms: three key variations
(`_` kept, `_` → space, `_` → hyphen), each tried against six bracket and
brace patterns, every pattern replaced unconditionally in sequence. -/
def keyVariationsFallback (x : List Char) (key value : List Char) : List Char :=
  let variations := [key,
    key.map (fun c => if c = '_' then ' ' else c),
    key.map (fun c => if c = '_' then '-' else c)]
  variations.foldl (fun acc kv =>
    let kToks := kv.map RTok.litCI
    let pats : List (List RTok) :=
      [[RTok.lit '['] ++ kToks ++ [RTok.lit ']'],
       [RTok.lit '[', RTok.many isJsWs] ++ kToks ++ [RTok.many isJsWs, RTok.lit ']'],
       [RTok.lit '{', RTok.lit '{'] ++ kToks ++ [RTok.lit '}', RTok.lit '}'],
       [RTok.lit '{', RTok.lit '{', RTok.many isJsWs] ++ kToks ++
         [RTok.many isJsWs, RTok.lit '}', RTok.lit '}'],
       [RTok.lit '{'] ++ kToks ++ [RTok.lit '}'],
       [RTok.lit '{', RTok.many isJsWs] ++ kToks ++ [RTok.many isJsWs, RTok.lit '}']]
    pats.foldl (fun acc2 p => replaceByMatch (matchRToks p) value acc2) acc) x

/-- One iteration of the non-blank replacement loop: skip empty or
whitespace-only answers, skip blank keys (already handled), then use the
recorded surface forms (or the key-variation fallback when none exist). -/
def nonBlankStep (fm : List (List Char × List (List Char)))
    (x : List Char) (e : List Char × List Char) : Except Unit (List Char) :=
  if (jsTrim e.2).isEmpty then Except.ok x
  else if isBlankKey e.1 then Except.ok x
  else
    let formats := (lookupA fm e.1).getD []
    if formats.isEmpty then Except.ok (keyVariationsFallback x e.1 e.2)
    else formats.foldlM (nonBlankFormatStep e.2) x

/-- The XML-manipulation path of `generateFilledDocument` on the document
body: the blank pass, then the non-blank pass, then marker stripping.
Reading and repackaging the ZIP container are external; an error models the
`SyntaxError` thrown by the last-resort pattern construction. -/
def genPrimary (xml : List Char) (placeholders : List (List Char))
    (fm : List (List Char × List (List Char)))
    (fv : List (List Char × List Char)) : Except Unit (List Char) := do
  let x1 := blanksPass xml placeholders fv
  let x2 ← fv.foldlM (nonBlankStep fm) x1
  return stripMarkers x2

/-- Text replacement of `generateFilledDocumentFallback`: for each answer,
replace the four curly-brace patterns `\{\{k\}\}`, `\{k\}`,
`\{\{\s*k\s*\}\}`, `\{\s*k\s*\}` (in that order, case-insensitively) by the
value.  Square-bracket and blank placeholders are not replaced at all. -/
def fallbackFill (text : List Char) (fv : List (List Char × List Char)) : List Char :=
  fv.foldl (fun t e =>
    let kToks := e.1.map RTok.litCI
    let pats : List (List RTok) :=
      [[RTok.lit '{', RTok.lit '{'] ++ kToks ++ [RTok.lit '}', RTok.lit '}'],
       [RTok.lit '{'] ++ kToks ++ [RTok.lit '}'],
       [RTok.lit '{', RTok.lit '{', RTok.many isJsWs] ++ kToks ++
         [RTok.many isJsWs, RTok.lit '}', RTok.lit '}'],
       [RTok.lit '{', RTok.many isJsWs] ++ kToks ++ [RTok.many isJsWs, RTok.lit '}']]
    pats.foldl (fun t2 p => replaceByMatch (matchRToks p) e.2 t2) t) text

/-- Control structure of `generateFilledDocument`: the primary XML path is
tried first; if it raises, the text-recreation fallback is returned
silently; only when the fallback also fails is the error
`'Failed to generate filled document'` propagated. -/
def generateFilledDocument (primary fallback : Except Unit (List Char)) :
    Except String (List Char) :=
  match primary with
  | Except.ok d => Except.ok d
  | Except.error _ =>
    match fallback with
    | Except.ok d => Except.ok d
    | Except.error _ => Except.error "Failed to generate filled document"

/-! ## Preview substitution and reconciliation (`DocumentPreview.jsx`) -/

/-- The style fragment marking a filled (green) span. -/
def greenMark : List Char := "background-color: #d4edda".data

/-- The style-prefix searched for around a candidate currency sign. -/
def bgMark : List Char := "background-color".data

/-- Opening of the green filled-value span. -/
def greenSpanOpen : List Char :=
  "<span style=\"background-color: #d4edda; padding: 2px 6px; border-radius: 3px; font-weight: 500; color: #155724; border: 1px solid #c3e6cb;\">".data

/-- A filled value rendered as a green span. -/
def greenSpan (value : List Char) : List Char :=
  greenSpanOpen ++ value ++ "</span>".data

/-- A signature value rendered as an image tag. -/
def imgTag (value : List Char) : List Char :=
  "<img src=\"".data ++ value ++
    "\" alt=\"Signature\" style=\"max-width: 200px; max-height: 60px; border: 1px solid #c3e6cb; border-radius: 3px; vertical-align: middle;\" />".data

/-- One unfilled blank found in the body: match position, match length, and
the position of a consumable currency sign before it, if one was found. -/
structure BlankInfo where
  idx : Nat
  len : Nat
  dollarIndex : Option Nat
deriving Repr, DecidableEq

/-- Scan backwards from the character before the blank, up to `lookback`
characters, for a `$` whose surrounding window
`substring(max(0, i - 50), i + 5)` contains no highlight style; a `$`
inside a highlight is skipped and the scan continues further back. -/
def lookbackDollar (html : List Char) (idx lookback : Nat) : Option Nat :=
  ((List.range (min idx lookback)).map fun t => idx - 1 - t).findSome? fun i =>
    if html.get? i = some '$' &&
        !containsL (substringL html (i - 50) (i + 5)) bgMark then
      some i
    else none

/-- Blank matches of the body that are not already wrapped in a green span
(a ±`window` character area around the match is searched for the green
style), each with its consumable dollar position, sorted ascending by
position. -/
def findUnfilledBlanksWith (window lookback : Nat) (html : List Char) : List BlankInfo :=
  let blanks := (scanBlankFull html 0).filterMap fun m =>
    let checkArea := substringL html (m.1 - window) (min html.length (m.1 + m.2 + window))
    if containsL checkArea greenMark then none
    else some (BlankInfo.mk m.1 m.2 (lookbackDollar html m.1 lookback))
  stableSortBy (fun b => b.idx) blanks

/-- The `findUnfilledBlanks` helper of the preview replacement step: ±50
window, 20-character dollar lookback. -/
def findUnfilledBlanks (html : List Char) : List BlankInfo :=
  findUnfilledBlanksWith 50 20 html

/-- The `findUnfilledBlanksForHighlight` helper of the
highlight/reconciliation step: ±100 window, 50-character dollar lookback. -/
def findUnfilledBlanksForHighlight (html : List Char) : List BlankInfo :=
  findUnfilledBlanksWith 100 50 html

/-- JavaScript `Array.indexOf` returning `none` for `-1`. -/
def indexOfL (l : List (List Char)) (k : List Char) : Option Nat :=
  go l 0
where
  go : List (List Char) → Nat → Option Nat
    | [], _ => none
    | p :: rest, i => if p = k then some i else go rest (i + 1)

/-- The blank-key branch of the preview's STEP 2 replacement (including the
leading empty-answer guard of the `forEach`): locate the key among the
blank keys, count the still-unfilled blanks before it, and splice the
rendered value over the blank at that index among the currently unfilled
blanks of the body — consuming the located `$` when one was found. -/
def previewBlankReplace (html : List Char) (placeholders : List (List Char))
    (fv : List (List Char × List Char)) (key value : List Char) : List Char :=
  if (jsTrim value).isEmpty then html
  else
    let allBlanksInOrder := placeholders.filter isBlankKey
    match indexOfL allBlanksInOrder key with
    | none => html
    | some pIdx =>
      let unfilledBlanks := findUnfilledBlanks html
      let unfilledIndex :=
        ((allBlanksInOrder.take pIdx).filter fun p => !isFilledVal fv p).length
      match unfilledBlanks.get? unfilledIndex with
      | none => html
      | some b =>
        let repl := if isPrefixL "data:image".data value then imgTag value
          else greenSpan value
        match b.dollarIndex with
        | some di => html.take di ++ repl ++ html.drop (b.idx + b.len)
        | none => html.take b.idx ++ repl ++ html.drop (b.idx + b.len)

/-- One step of the reconciliation `forEach`: pair the blank at index
`ib.1` with the `ib.1`-th unanswered key when one exists; otherwise apply
the first-blank fallback (possible only when no unanswered key exists at
all, so it never fires). -/
def mapAssignStep (uk : List (List Char)) (m : List (Nat × List Char))
    (ib : Nat × BlankInfo) : List (Nat × List Char) :=
  match uk.get? ib.1 with
  | some k => setN m ib.1 k
  | none =>
    if ib.1 = 0 && uk.length > 0 then setN m 0 (uk.headD []) else m

/-- The reconciliation mapping of the highlight step: pair the `i`-th
unfilled blank of the body with the `i`-th still-unanswered blank key (the
map is keyed by the blank's position in the unfilled-blank list, standing
for the blank object used as the JavaScript `Map` key); when the index is
out of range, the first blank is force-paired with the first unanswered key
only if it is the first blank and an unanswered key exists; afterwards, the
`blank_0` verification force-pairs the first blank with `blank_0` when
`blank_0` is the first blank key, is unanswered, and is not yet mapped.
Returns the mapping together with the count-mismatch warning flag. -/
def buildBlankMapping (html : List Char) (placeholders : List (List Char))
    (fv : List (List Char × List Char)) :
    List (Nat × List Char) × Bool :=
  let allBlanksInOrder := placeholders.filter isBlankKey
  let ub := findUnfilledBlanksForHighlight html
  let uk := allBlanksInOrder.filter fun k => !isFilledVal fv k
  let base := ub.enum.foldl (mapAssignStep uk) []
  let verified :=
    if allBlanksInOrder.headD [] = "blank_0".data &&
        !isFilledVal fv "blank_0".data &&
        !(base.map Prod.snd).contains "blank_0".data &&
        !ub.isEmpty && (lookupN base 0).isNone then
      setN base 0 "blank_0".data
    else base
  (verified, decide (ub.length ≠ uk.length))

/-! ## Concrete evaluations -/

/-- C1: the claim fails on the code.  With both blanks answered (the state
in which generation runs, since download requires all fields filled), the
occurrence index computed for each blank counts only *unanswered* blanks
before it and is therefore `0` for every answered blank, while the match
list shrinks as replacements are marked; processing in reverse document
order then sends `blank_1`'s answer to the first bracket and `blank_0`'s to
the second.  On a body with two blanks 60 characters apart and answers
`blank_0 ↦ "AAA"`, `blank_1 ↦ "BBB"`, the generator produces the swapped
body `"BBB…AAA"` instead of `"AAA…BBB"`. -/
theorem c1_generator_swaps_blank_answers :
    genPrimary ("[____]".data ++ List.replicate 60 'x' ++ "[____]".data)
        ["blank_0".data, "blank_1".data] []
        [("blank_0".data, "AAA".data), ("blank_1".data, "BBB".data)] =
      Except.ok ("BBB".data ++ List.replicate 60 'x' ++ "AAA".data) := by
  rfl

/-- C2: the claim fails on the code.  On the Scenario B text the extraction
does produce exactly the keys `blank_0` and `blank_1` in document order,
but their labels come out swapped: the `$[…] (the "…")` regex is matched
against the 200 characters *before* the blank, which cannot contain the
blank's own bracket, so for `blank_0` it fails and the keyword lookahead —
which sees 200 characters *after* the blank, including the second blank's
defined term — fires `Post-Money Valuation Cap` first; for `blank_1` the
before-context contains the complete first `$[____] (the "Purchase
Amount")` pattern, which yields `Purchase Amount`. -/
theorem c2_scenario_b_labels_swapped :
    (parseCore ("Amount: $[____] (the \"Purchase Amount\"). Cap: $[____] (the \"Post-Money Valuation Cap\").").data
        []).placeholderObjects =
      [PRecord.mk "blank_0".data "Post-Money Valuation Cap".data "string".data [] 1,
       PRecord.mk "blank_1".data "Purchase Amount".data "string".data [] 2] := by
  rfl

/-- C4: the claim fails on the code.  The sort comparator reads the stored
first-occurrence offset through `placeholderPositions.get(k) || 999999`; a
legitimate offset `0` is falsy in JavaScript and is replaced by `999999`,
so the key whose first occurrence starts the document sorts *last*.  On
`"[company] and [investor]"` the offsets are `company ↦ 0` and
`investor ↦ 14`, yet the records come out `[investor, company]` with
positions `1` and `2`. -/
theorem c4_offset_zero_key_sorted_last :
    (parseCore "[company] and [investor]".data []).placeholders =
        ["investor".data, "company".data] ∧
      storedPosition "[company] and [investor]".data
        (extractState "[company] and [investor]".data []).formatMap "company".data = 0 ∧
      storedPosition "[company] and [investor]".data
        (extractState "[company] and [investor]".data []).formatMap "investor".data = 14 ∧
      ((parseCore "[company] and [investor]".data []).placeholderObjects.map
        PRecord.position) = [1, 2] :=
  ⟨rfl, rfl, rfl, rfl⟩

/-- C3 counterexample: on `"[---]x[___]"` the identifier pattern (whose
content class includes underscore-initial runs) mints `blank_0` for the
*second* blank at offset 6 during the first pass, and the blank pattern
then mints `blank_1` for the first blank at offset 0 during the second
pass, so the occurrence assigned `blank_0` does not precede the occurrence
assigned `blank_1`: the numbering is not monotone in document order. -/
theorem c3_mixed_blanks_numbering_inverted :
    blankMints "[---]x[___]".data = [(6, "blank_0".data), (0, "blank_1".data)] ∧
      ¬ ((blankMints "[---]x[___]".data).map Prod.fst).Pairwise (· < ·) := by
  exact ⟨rfl, by decide⟩

/-- C5 counterexample: substitution with an *empty* answer map is not the
identity on every body, because the final pass strips every literal
occurrence of the internal replaced-marker: on the body
`"a<!--REPLACED-->b"` it returns `"ab"`. -/
theorem c5_marker_body_changed :
    genPrimary "a<!--REPLACED-->b".data [] [] [] = Except.ok "ab".data ∧
      "ab".data ≠ "a<!--REPLACED-->b".data := by
  exact ⟨rfl, by decide⟩

/-- C6 counterexample: the document generator does *not* consume a currency
sign preceding the located blank — it replaces exactly the bracket span, so
the generated body contains the document's own `$` immediately followed by
the inserted answer. -/
theorem c6_generator_keeps_currency_sign :
    genPrimary "Cost $[____]. done".data ["blank_0".data] []
        [("blank_0".data, "100".data)] = Except.ok "Cost $100. done".data ∧
      containsL "Cost $100. done".data ("$100".data) = true := by
  exact ⟨rfl, rfl⟩

/-- C8 counterexample: a mismatched state in which the body still shows one
unfilled bracket blank but every blank key is answered.  The count mismatch
is detected (warning flag set), but the mapping comes out *empty*: the
first unfilled match is left unmapped, because the forced pairing runs only
when at least one unanswered key exists and the `blank_0` fallback requires
`blank_0` to be unanswered. -/
theorem c8_zero_unanswered_leaves_unmapped :
    buildBlankMapping "[____]".data ["blank_0".data]
        [("blank_0".data, "x".data)] = ([], true) ∧
      (findUnfilledBlanksForHighlight "[____]".data).length = 1 := by
  exact ⟨rfl, rfl⟩

/-! ## C7 and C10: error-handling structure -/

/-- C7: extraction throws its parse error exactly when the uploaded input
cannot be decoded as a DOCX (modelled as the `none` input, since decoding
is done by the external `mammoth` library), and in that case no partial
schema is returned; the extraction body itself is total, so a decodable
input with zero placeholders is not an error and yields the empty schema. -/
theorem c7_parse_error_iff_undecodable :
    (∀ input : Option (List Char × List Char),
        (∃ e, parseDocument input = Except.error e) ↔ input = none) ∧
      parseDocument (some ("no placeholders here.".data, [])) =
        Except.ok (ParseResult.mk [] [] []) := by
  constructor
  · intro input
    cases input with
    | none => simp [parseDocument]
    | some th => simp [parseDocument]
  · rfl


/-- C10: document generation propagates an error exactly when both the
primary XML-manipulation path and the text-recreation fallback fail; when
only the primary path raises, the fallback document is returned silently.
The fallback's text replacement touches curly-brace patterns only: on
`"Pay [company] or {{company}} now [____]"` with `company ↦ "Acme"` it
replaces `{{company}}` and leaves the bracket placeholder `[company]` and
the blank `[____]` untouched (original formatting is rebuilt, not kept). -/
theorem c10_generation_fallback_structure :
    (∀ p f : Except Unit (List Char),
        (∃ e, generateFilledDocument p f = Except.error e) ↔
          ((∃ u, p = Except.error u) ∧ (∃ u, f = Except.error u))) ∧
      (∀ d : List Char,
        generateFilledDocument (Except.error ()) (Except.ok d) = Except.ok d) ∧
      fallbackFill "Pay [company] or \x7b\x7bcompany\x7d\x7d now [____]".data
          [("company".data, "Acme".data)] =
        "Pay [company] or Acme now [____]".data := by
  refine ⟨?_, ?_, rfl⟩
  · intro p f
    cases p <;> cases f <;> simp [generateFilledDocument]
  · intro d
    rfl

/-- Witness for C10: a primary-path failure with a succeeding fallback
returns the fallback document. -/
theorem c10_witness :
    generateFilledDocument (Except.error ()) (Except.ok "doc".data) =
      Except.ok "doc".data :=
  c10_generation_fallback_structure.2.1 "doc".data

/-! ## C5: whitespace-only answers cause no modification -/

/-- Membership is preserved by the stable descending insertion. -/
theorem mem_insertDescBy {α : Type} (f : α → Int) (x y : α) (l : List α)
    (h : y ∈ insertDescBy f x l) : y = x ∨ y ∈ l := by
  induction l with
  | nil => simpa [insertDescBy] using h
  | cons z zs ih =>
    by_cases hc : f x ≥ f z
    · simpa [insertDescBy, hc] using h
    · simp only [insertDescBy, if_neg hc, List.mem_cons] at h
      rcases h with h | h
      · exact Or.inr (h ▸ List.mem_cons_self z zs)
      · rcases ih h with h' | h'
        · exact Or.inl h'
        · exact Or.inr (List.mem_cons_of_mem z h')

/-- Membership is preserved by the stable descending sort. -/
theorem mem_sortDescBy {α : Type} (f : α → Int) (y : α) (l : List α)
    (h : y ∈ sortDescBy f l) : y ∈ l := by
  induction l with
  | nil => simp [sortDescBy] at h
  | cons x xs ih =>
    rcases mem_insertDescBy f x y _ h with h' | h'
    · exact h' ▸ List.mem_cons_self x xs
    · exact List.mem_cons_of_mem x (ih h')

/-- A blank-replacement step with a whitespace-only answer is the identity. -/
theorem blankStep_of_ws (placeholders : List (List Char))
    (fv : List (List Char × List Char)) (xml : List Char)
    (e : List Char × List Char) (h : (jsTrim e.2).isEmpty = true) :
    blankStep placeholders fv xml e = xml := by
  simp [blankStep, h]

/-- The whole blank-replacement fold with whitespace-only answers is the
identity. -/
theorem foldl_blankStep_of_ws (placeholders : List (List Char))
    (fv : List (List Char × List Char)) (l : List (List Char × List Char))
    (hl : ∀ e ∈ l, (jsTrim e.2).isEmpty = true) :
    ∀ xml, l.foldl (blankStep placeholders fv) xml = xml := by
  induction l with
  | nil => intro xml; rfl
  | cons e es ih =>
    intro xml
    rw [List.foldl_cons, blankStep_of_ws _ _ _ _ (hl e (List.mem_cons_self e es))]
    exact ih (fun e' he' => hl e' (List.mem_cons_of_mem e he')) xml

/-- A non-blank step with a whitespace-only answer is the identity. -/
theorem nonBlankStep_of_ws (fm : List (List Char × List (List Char)))
    (x : List Char) (e : List Char × List Char)
    (h : (jsTrim e.2).isEmpty = true) :
    nonBlankStep fm x e = Except.ok x := by
  simp [nonBlankStep, h]

/-- The whole non-blank fold with whitespace-only answers returns the body
unchanged. -/
theorem foldlM_nonBlankStep_of_ws (fm : List (List Char × List (List Char)))
    (l : List (List Char × List Char))
    (hl : ∀ e ∈ l, (jsTrim e.2).isEmpty = true) :
    ∀ x, l.foldlM (nonBlankStep fm) x = Except.ok x := by
  induction l with
  | nil => intro x; rfl
  | cons e es ih =>
    intro x
    rw [List.foldlM_cons, nonBlankStep_of_ws _ _ _ (hl e (List.mem_cons_self e es))]
    show (List.foldlM (nonBlankStep fm) x es) = Except.ok x
    exact ih (fun e' he' => hl e' (List.mem_cons_of_mem e he')) x

/-- Unfolding of substring containment on a cons cell. -/
theorem containsL_cons (c : Char) (rest pat : List Char) :
    containsL (c :: rest) pat = (isPrefixL pat (c :: rest) || containsL rest pat) := by
  rfl

/-- Marker stripping is the identity on a body that does not contain the
marker. -/
theorem stripMarkers_of_not_contains (s : List Char)
    (h : containsL s marker = false) : stripMarkers s = s := by
  induction s with
  | nil => rfl
  | cons c rest ih =>
    rw [containsL_cons] at h
    simp only [Bool.or_eq_false_iff] at h
    have ihr : csRemoveAll.go marker 0 rest = rest := ih h.2
    show csRemoveAll.go marker 0 (c :: rest) = c :: rest
    rw [csRemoveAll.go, h.1]
    simp [ihr]

/-- C5 (amended): substitution leaves the body byte-for-byte unchanged for
every answer map whose values are all empty or whitespace-only — in
particular for the empty answer map — provided the body does not contain
the internal replaced-marker `<!--REPLACED-->`; every such key is treated
as not answered and skipped by both replacement passes.  (A body containing
the literal marker is the one exception: the final marker-stripping pass
deletes those occurrences.) -/
theorem c5_whitespace_answers_identity (xml : List Char)
    (placeholders : List (List Char))
    (fm : List (List Char × List (List Char)))
    (fv : List (List Char × List Char))
    (hws : ∀ e ∈ fv, (jsTrim e.2).isEmpty = true)
    (hm : containsL xml marker = false) :
    genPrimary xml placeholders fm fv = Except.ok xml := by
  have hblank : blanksPass xml placeholders fv = xml := by
    unfold blanksPass
    refine foldl_blankStep_of_ws placeholders fv _ ?_ xml
    intro e he
    exact hws e (List.mem_filter.mp (mem_sortDescBy _ e _ he)).1
  have hnon : fv.foldlM (nonBlankStep fm) xml = Except.ok xml :=
    foldlM_nonBlankStep_of_ws fm fv hws xml
  show (do
    let x2 ← fv.foldlM (nonBlankStep fm) (blanksPass xml placeholders fv)
    return stripMarkers x2) = Except.ok xml
  rw [hblank, hnon]
  show Except.ok (stripMarkers xml) = Except.ok xml
  rw [stripMarkers_of_not_contains xml hm]

/-- Witness for C5: a schema with one blank key answered by blanks only
leaves the body unchanged. -/
theorem c5_witness :
    genPrimary "hi [____] there".data ["blank_0".data] []
      [("blank_0".data, "  ".data)] = Except.ok "hi [____] there".data :=
  c5_whitespace_answers_identity _ _ _ _ (by decide) (by decide)

/-! ## C9: one key per blank occurrence position -/

theorem lookupN_eq_none_iff {β : Type} (l : List (Nat × β)) (k : Nat) :
    lookupN l k = none ↔ k ∉ l.map Prod.fst := by
  induction l with
  | nil => simp [lookupN]
  | cons p rest ih =>
    by_cases hk : p.1 = k
    · simp [lookupN, hk]
    · simp [lookupN, hk, ih, Ne.symm hk]

theorem addValid_bp (st : ExtractState) (n f : List Char) :
    (addValid st n f).blankPositions = st.blankPositions := by
  unfold addValid; split <;> rfl

theorem addValid_counter (st : ExtractState) (n f : List Char) :
    (addValid st n f).blankCounter = st.blankCounter := by
  unfold addValid; split <;> rfl

/-- The minting invariant: blank positions are duplicate-free and the keys
minted so far are exactly `blank_0 … blank_(counter-1)`, in order. -/
def StInv (st : ExtractState) : Prop :=
  (st.blankPositions.map Prod.fst).Nodup ∧
  st.blankPositions.map Prod.snd = (List.range st.blankCounter).map blankName

theorem processTextMatch_inv (st : ExtractState) (m : Nat × List Char)
    (h : StInv st) : StInv (processTextMatch st m) := by
  by_cases hb : isBlankRun (jsTrim m.2) = true
  · cases hl : lookupN st.blankPositions m.1 with
    | some k =>
      have hrw : processTextMatch st m = addValid st k ('[' :: m.2 ++ [']']) := by
        simp [processTextMatch, hb, hl]
      rw [hrw]
      exact ⟨by rw [addValid_bp]; exact h.1,
        by rw [addValid_bp, addValid_counter]; exact h.2⟩
    | none =>
      have hrw : processTextMatch st m =
          addValid
            ⟨st.uniques, st.formatMap,
              st.blankPositions ++ [(m.1, blankName st.blankCounter)],
              st.blankCounter + 1⟩
            (blankName st.blankCounter) ('[' :: m.2 ++ [']']) := by
        simp [processTextMatch, hb, hl]
      rw [hrw]
      have hnotin : m.1 ∉ st.blankPositions.map Prod.fst :=
        (lookupN_eq_none_iff _ _).mp hl
      constructor
      · rw [addValid_bp]
        simp only [List.map_append, List.map_cons, List.map_nil]
        rw [List.nodup_append]
        exact ⟨h.1, List.nodup_singleton _,
          by simpa [List.disjoint_singleton] using hnotin⟩
      · rw [addValid_bp, addValid_counter]
        simp only [List.map_append, List.map_cons, List.map_nil]
        rw [h.2, List.range_succ, List.map_append, List.map_cons, List.map_nil]
  · by_cases hv : isValidName (normalizeName (jsTrim m.2)) (jsTrim m.2) = true
    · have hrw : processTextMatch st m =
          addValid st (normalizeName (jsTrim m.2)) ('[' :: m.2 ++ [']']) := by
        simp [processTextMatch, hb, hv]
      rw [hrw]
      exact ⟨by rw [addValid_bp]; exact h.1,
        by rw [addValid_bp, addValid_counter]; exact h.2⟩
    · have hrw : processTextMatch st m = st := by
        simp [processTextMatch, hb, hv]
      rw [hrw]; exact h

theorem foldl_processTextMatch_inv (ms : List (Nat × List Char))
    (st : ExtractState) (h : StInv st) :
    StInv (ms.foldl processTextMatch st) := by
  induction ms generalizing st with
  | nil => exact h
  | cons m rest ih => exact ih _ (processTextMatch_inv st m h)

theorem textState_inv (text : List Char) : StInv (textState text) := by
  unfold textState pass1State
  exact foldl_processTextMatch_inv _ _
    (foldl_processTextMatch_inv _ _ ⟨List.nodup_nil, rfl⟩)

/-- In an association list whose positions are duplicate-free, a position
determines its key. -/
theorem assoc_key_unique {β : Type} (l : List (Nat × β))
    (hn : (l.map Prod.fst).Nodup) (p : Nat) (k1 k2 : β)
    (h1 : (p, k1) ∈ l) (h2 : (p, k2) ∈ l) : k1 = k2 := by
  induction l with
  | nil => cases h1
  | cons e rest ih =>
    rcases List.mem_cons.mp h1 with he1 | ht1 <;>
      rcases List.mem_cons.mp h2 with he2 | ht2
    · have heq : (p, k1) = (p, k2) := he1.trans he2.symm
      simpa using congrArg Prod.snd heq
    · exfalso
      rw [← he1, List.map_cons, List.nodup_cons] at hn
      have hp : p ∈ rest.map Prod.fst := List.mem_map_of_mem Prod.fst ht2
      exact hn.1 hp
    · exfalso
      rw [← he2, List.map_cons, List.nodup_cons] at hn
      have hp : p ∈ rest.map Prod.fst := List.mem_map_of_mem Prod.fst ht1
      exact hn.1 hp
    · rw [List.map_cons, List.nodup_cons] at hn
      exact ih hn.2 ht1 ht2

/-- C9: re-matching the same character offset never mints a new blank key.
For every text, the blank position → key assignment built by the two text
passes has duplicate-free positions — so no two distinct keys ever claim
the same blank occurrence position — and its keys are exactly
`blank_0 … blank_(counter-1)`, one per distinct position.  Concretely, on
`"[________]"` both patterns match at offset `0`, yet a single key
`blank_0` is minted. -/
theorem c9_blank_occurrence_keys_unique :
    (∀ text : List Char,
        ((blankMints text).map Prod.fst).Nodup ∧
        (∀ p k1 k2, (p, k1) ∈ blankMints text → (p, k2) ∈ blankMints text →
          k1 = k2) ∧
        (blankMints text).map Prod.snd =
          (List.range (textState text).blankCounter).map blankName) ∧
      blankMints "[________]".data = [(0, "blank_0".data)] ∧
      (scanIdent "[________]".data 0).length = 1 ∧
      (scanBlankPat "[________]".data 0).length = 1 := by
  refine ⟨fun text => ?_, rfl, rfl, rfl⟩
  obtain ⟨hn, hr⟩ := textState_inv text
  exact ⟨hn, fun p k1 k2 h1 h2 => assoc_key_unique _ hn p k1 k2 h1 h2, hr⟩

/-- Witness for C9 at a text mixing two blanks. -/
theorem c9_witness :
    ((blankMints "x [____] y [____]".data).map Prod.fst).Nodup :=
  ((c9_blank_occurrence_keys_unique.1 "x [____] y [____]".data).1)

/-! ## C3: blank numbering order -/

theorem scanWith_ge (f : List Char → Option (List Char)) :
    ∀ (l : List Char) (i : Nat) (pc : Nat × List Char),
      pc ∈ scanWith f l i → i ≤ pc.1 := by
  intro l
  induction l with
  | nil => intro i pc h; simp [scanWith] at h
  | cons c rest ih =>
    intro i pc h
    by_cases hc : c = '['
    · cases hf : f rest with
      | some content =>
        simp only [scanWith, hc, if_true, hf] at h
        rcases List.mem_cons.mp h with he | ht
        · rw [he]
        · exact Nat.le_of_succ_le (ih (i + 1) pc ht)
      | none =>
        simp only [scanWith, hc, if_true, hf] at h
        exact Nat.le_of_succ_le (ih (i + 1) pc h)
    · simp only [scanWith, hc, if_false] at h
      exact Nat.le_of_succ_le (ih (i + 1) pc h)

theorem scanWith_pairwise (f : List Char → Option (List Char)) :
    ∀ (l : List Char) (i : Nat),
      ((scanWith f l i).map Prod.fst).Pairwise (· < ·) := by
  intro l
  induction l with
  | nil => intro i; simp [scanWith]
  | cons c rest ih =>
    intro i
    by_cases hc : c = '['
    · cases hf : f rest with
      | some content =>
        simp only [scanWith, hc, if_true, hf, List.map_cons]
        rw [List.pairwise_cons]
        refine ⟨?_, ih (i + 1)⟩
        intro q hq
        obtain ⟨pc, hpc, hq'⟩ := List.mem_map.mp hq
        have := scanWith_ge f rest (i + 1) pc hpc
        omega
      | none =>
        simp only [scanWith, hc, if_true, hf]
        exact ih (i + 1)
    · simp only [scanWith, hc, if_false]
      exact ih (i + 1)

/-- A text-extraction step either leaves the blank assignment unchanged or
appends the freshly minted key at the match position. -/
theorem processTextMatch_bp (st : ExtractState) (m : Nat × List Char) :
    (processTextMatch st m).blankPositions = st.blankPositions ∨
      (processTextMatch st m).blankPositions =
        st.blankPositions ++ [(m.1, blankName st.blankCounter)] := by
  by_cases hb : isBlankRun (jsTrim m.2) = true
  · cases hl : lookupN st.blankPositions m.1 with
    | some k =>
      left
      simp [processTextMatch, hb, hl, addValid_bp]
    | none =>
      right
      have hrw : processTextMatch st m =
          addValid
            ⟨st.uniques, st.formatMap,
              st.blankPositions ++ [(m.1, blankName st.blankCounter)],
              st.blankCounter + 1⟩
            (blankName st.blankCounter) ('[' :: m.2 ++ [']']) := by
        simp [processTextMatch, hb, hl]
      rw [hrw, addValid_bp]
  · by_cases hv : isValidName (normalizeName (jsTrim m.2)) (jsTrim m.2) = true
    · left; simp [processTextMatch, hb, hv, addValid_bp]
    · left; simp [processTextMatch, hb, hv]

/-- Folding extraction steps appends a set of new mints whose positions
form a subsequence of the scanned match positions. -/
theorem foldl_bp_delta (ms : List (Nat × List Char)) :
    ∀ st : ExtractState, ∃ Δ,
      (ms.foldl processTextMatch st).blankPositions = st.blankPositions ++ Δ ∧
        List.Sublist (Δ.map Prod.fst) (ms.map Prod.fst) := by
  induction ms with
  | nil => intro st; exact ⟨[], by simp, List.nil_sublist _⟩
  | cons m rest ih =>
    intro st
    obtain ⟨Δ, hΔ, hs⟩ := ih (processTextMatch st m)
    rcases processTextMatch_bp st m with hbp | hbp
    · refine ⟨Δ, ?_, ?_⟩
      · rw [List.foldl_cons, hΔ, hbp]
      · exact List.Sublist.cons m.1 hs
    · refine ⟨(m.1, blankName st.blankCounter) :: Δ, ?_, ?_⟩
      · rw [List.foldl_cons, hΔ, hbp, List.append_assoc, List.singleton_append]
      · simp only [List.map_cons]
        exact List.Sublist.cons₂ m.1 hs

/-- C3 (amended): blank numbering is strictly increasing in document order
*within* each matcher pass — among the blanks minted by the identifier
pattern (underscore-initial runs) and among those minted afterwards by the
blank pattern (the remaining, hyphen-initial runs) — and the overall
numbering is strictly increasing whenever every first-pass mint precedes
every second-pass mint, in particular when all blanks are matched by a
single pass.  (When a hyphen-run blank precedes an underscore-run blank the
cross-pass boundary inverts the order, as the counterexample shows.) -/
theorem c3_blank_numbering_monotone_per_pass (text : List Char) :
    ((pass1Mints text).map Prod.fst).Pairwise (· < ·) ∧
      ((pass2Mints text).map Prod.fst).Pairwise (· < ·) ∧
      ((∀ p ∈ (pass1Mints text).map Prod.fst,
          ∀ q ∈ (pass2Mints text).map Prod.fst, p < q) →
        ((blankMints text).map Prod.fst).Pairwise (· < ·)) := by
  obtain ⟨d1, hd1, hs1⟩ := foldl_bp_delta (scanIdent text 0) initExtractState
  obtain ⟨d2, hd2, hs2⟩ := foldl_bp_delta (scanBlankPat text 0) (pass1State text)
  have h1 : pass1Mints text = d1 := by
    show (pass1State text).blankPositions = d1
    unfold pass1State
    rw [hd1]
    rfl
  have hfull : blankMints text = pass1Mints text ++ d2 := by
    show (textState text).blankPositions = (pass1State text).blankPositions ++ d2
    unfold textState
    exact hd2
  have h2 : pass2Mints text = d2 := by
    show (blankMints text).drop (pass1Mints text).length = d2
    rw [hfull, List.drop_left]
  have hp1 : ((pass1Mints text).map Prod.fst).Pairwise (· < ·) := by
    rw [h1]
    exact (scanWith_pairwise identContentAt text 0).sublist hs1
  have hp2 : ((pass2Mints text).map Prod.fst).Pairwise (· < ·) := by
    rw [h2]
    exact (scanWith_pairwise blankContentAt text 0).sublist hs2
  refine ⟨hp1, hp2, fun hcross => ?_⟩
  rw [hfull, List.map_append, List.pairwise_append]
  refine ⟨hp1, h2 ▸ hp2, ?_⟩
  intro p hp q hq
  exact hcross p hp q (h2 ▸ hq)

/-- Witness for C3: on `"[___] [---]"` the underscore blank is minted in
pass 1 at offset 0 and the hyphen blank in pass 2 at offset 6, so the
cross-pass condition holds and the full numbering is monotone. -/
theorem c3_witness :
    ((blankMints "[___] [---]".data).map Prod.fst).Pairwise (· < ·) :=
  (c3_blank_numbering_monotone_per_pass "[___] [---]".data).2.2 (by decide)

/-! ## C6: currency-sign consumption in the preview path -/

/-- C6 (amended): it is the *preview* substitution path that consumes a
currency sign immediately preceding the located blank (the document
generator leaves the sign in place, as the counterexample shows).  For
every non-whitespace, non-signature answer `v`, replacing `blank_0` in the
preview body `"Pay $[____] fee"` consumes the `$` into the replaced span:
the result is exactly `"Pay "` followed by the green span around `v` and
`" fee"`, with the document's own `$` gone. -/
theorem c6_preview_consumes_dollar (v : List Char)
    (hv : (jsTrim v).isEmpty = false)
    (himg : isPrefixL "data:image".data v = false) :
    previewBlankReplace "Pay $[____] fee".data ["blank_0".data]
        [("blank_0".data, v)] "blank_0".data v =
      "Pay ".data ++ greenSpan v ++ " fee".data := by
  unfold previewBlankReplace
  rw [hv, himg]
  rfl

/-- Witness for C6 at the concrete answer `"100"`. -/
theorem c6_witness :
    previewBlankReplace "Pay $[____] fee".data ["blank_0".data]
        [("blank_0".data, "100".data)] "blank_0".data "100".data =
      "Pay ".data ++ greenSpan "100".data ++ " fee".data :=
  c6_preview_consumes_dollar "100".data (by decide) (by decide)

/-! ## C8: forced first pairing in the reconciler -/

theorem lookupN_setN_ne {β : Type} (m : List (Nat × β)) (k k' : Nat) (v : β)
    (h : k' ≠ k) : lookupN (setN m k v) k' = lookupN m k' := by
  induction m with
  | nil => simp [setN, lookupN, Ne.symm h]
  | cons e rest ih =>
    by_cases he : e.1 = k
    · simp [setN, he, lookupN, Ne.symm h]
    · simp [setN, he, lookupN, ih]

/-- An assignment step for a blank with a hit at its index. -/
theorem mapAssignStep_hit (uk : List (List Char)) (m : List (Nat × List Char))
    (ib : Nat × BlankInfo) (k : List Char) (h : uk.get? ib.1 = some k) :
    mapAssignStep uk m ib = setN m ib.1 k := by
  unfold mapAssignStep
  rw [h]

/-- An assignment step for a blank with a positive index never touches the
binding at index `0`. -/
theorem mapAssignStep_ne_zero (uk : List (List Char))
    (m : List (Nat × List Char)) (ib : Nat × BlankInfo) (h : ib.1 ≠ 0) :
    lookupN (mapAssignStep uk m ib) 0 = lookupN m 0 := by
  unfold mapAssignStep
  cases huk : uk.get? ib.1 with
  | some k => exact lookupN_setN_ne _ _ _ _ (Ne.symm h)
  | none => simp [h]

/-- Folding assignment steps over blanks with positive indices never
touches the binding at index `0`. -/
theorem foldl_mapAssign_preserve (uk : List (List Char)) :
    ∀ (l : List BlankInfo) (n : Nat), 1 ≤ n → ∀ m : List (Nat × List Char),
      lookupN ((List.enumFrom n l).foldl (mapAssignStep uk) m) 0 = lookupN m 0 := by
  intro l
  induction l with
  | nil => intro n hn m; rfl
  | cons b bs ih =>
    intro n hn m
    show lookupN (((n, b) :: List.enumFrom (n + 1) bs).foldl (mapAssignStep uk) m) 0 =
      lookupN m 0
    rw [List.foldl_cons, ih (n + 1) (by omega)]
    exact mapAssignStep_ne_zero uk m (n, b) (by simp; omega)

/-- C8 (amended): whenever at least one unanswered blank key remains, the
first unfilled blank match of the body is paired with the first unanswered
key — also in every count-mismatch state, including more unfilled matches
than unanswered keys — and the count discrepancy is reported as a warning
exactly when the two lengths differ; the reconciliation is a total
function, never fatal.  (When *no* unanswered key remains the first match
stays unmapped, as the counterexample shows.) -/
theorem c8_first_pairing_with_unanswered_key
    (html : List Char) (placeholders : List (List Char))
    (fv : List (List Char × List Char)) (k0 : List Char)
    (hub : findUnfilledBlanksForHighlight html ≠ [])
    (hk : ((placeholders.filter isBlankKey).filter fun k =>
      !isFilledVal fv k).head? = some k0) :
    lookupN (buildBlankMapping html placeholders fv).1 0 = some k0 ∧
      ((buildBlankMapping html placeholders fv).2 = true ↔
        (findUnfilledBlanksForHighlight html).length ≠
          ((placeholders.filter isBlankKey).filter fun k =>
            !isFilledVal fv k).length) := by
  refine ⟨?_, decide_eq_true_iff⟩
  set uk := (placeholders.filter isBlankKey).filter (fun k => !isFilledVal fv k)
    with hukdef
  set ub := findUnfilledBlanksForHighlight html with hubdef
  set base := ub.enum.foldl (mapAssignStep uk) [] with hbasedef
  have huk0 : uk.get? 0 = some k0 := by
    cases hcase : uk with
    | nil => rw [hcase] at hk; simp at hk
    | cons a t =>
      rw [hcase] at hk
      simp only [List.head?_cons, Option.some.injEq] at hk
      simp [hk]
  have hbase : lookupN base 0 = some k0 := by
    obtain ⟨b0, bs, hub0⟩ := List.exists_cons_of_ne_nil hub
    rw [hbasedef, hub0]
    show lookupN (((0, b0) :: List.enumFrom 1 bs).foldl (mapAssignStep uk) []) 0 =
      some k0
    rw [List.foldl_cons, mapAssignStep_hit uk [] (0, b0) k0 huk0,
      foldl_mapAssign_preserve uk bs 1 (le_refl 1)]
    rfl
  have hfst : (buildBlankMapping html placeholders fv).1 =
      (if (placeholders.filter isBlankKey).headD [] = "blank_0".data &&
          !isFilledVal fv "blank_0".data &&
          !(base.map Prod.snd).contains "blank_0".data &&
          !ub.isEmpty && (lookupN base 0).isNone then
        setN base 0 "blank_0".data
      else base) := rfl
  rw [hfst]
  have hnone : (lookupN base 0).isNone = false := by rw [hbase]; rfl
  rw [hnone, Bool.and_false]
  simp only [Bool.false_eq_true, if_false]
  exact hbase

/-- Witness for C8: three unfilled matches, two unanswered keys — a
mismatch state — still pairs the first match with `blank_0` and warns. -/
theorem c8_witness :
    lookupN (buildBlankMapping "[____] x [____] x [____]".data
        ["blank_0".data, "blank_1".data] []).1 0 = some "blank_0".data ∧
      ((buildBlankMapping "[____] x [____] x [____]".data
          ["blank_0".data, "blank_1".data] []).2 = true ↔
        (findUnfilledBlanksForHighlight "[____] x [____] x [____]".data).length ≠
          (((["blank_0".data, "blank_1".data] :
            List (List Char)).filter isBlankKey).filter fun k =>
              !isFilledVal [] k).length) :=
  c8_first_pairing_with_unanswered_key _ _ _ "blank_0".data (by decide) (by decide)
